import Mathlib

/-!
Verification of the pricing-page discovery and resumable batch-extraction
pipeline (`main.py`, `main_failed.py`, `main_1_1.py`).

The Python code is shallowly embedded: network requests, the language-model
client, the HTML/XML parsing library and `json.loads` are modelled as
explicit oracle records (functions from URLs/texts to outcomes), while all
control flow, string filters, bounds, sampling arithmetic and record
construction of the repository itself are translated directly.  Exceptions
raised by a collaborator appear as `Option`/`Except` values; every code path
of the source that catches an exception is translated as the corresponding
`none`/`.error` branch.
-/

/-- URLs are plain strings, as in the source. -/
abbrev Url := String

/-- Boolean prefix test on lists. -/
def listPrefixB : List Char → List Char → Bool
  | [], _ => true
  | _ :: _, [] => false
  | a :: as, b :: bs => a == b && listPrefixB as bs

/-- Boolean contiguous-sublist test on lists. -/
def listInfixB (needle : List Char) : List Char → Bool
  | [] => needle.isEmpty
  | b :: bs => listPrefixB needle (b :: bs) || listInfixB needle bs

/-- Python's `needle in haystack` substring test on strings. -/
def containsSubstr (haystack needle : String) : Bool :=
  listInfixB needle.data haystack.data

/-- `url.lower()` as used by the keyword filters (character-wise ASCII
lowering). -/
def lowerStr (s : String) : String := String.mk (s.data.map Char.toLower)

/-! ## Pricing-URL Ranker: priority sampling (`_ai_identify_pricing_links`, main.py lines 404-435) -/

/-- High-priority keywords of the sampling step (main.py line 419). -/
def highKeywords : List String :=
  ["pricing", "price", "plan", "buy", "subscribe", "order", "checkout"]

/-- Medium-priority keywords of the sampling step (main.py line 421). -/
def mediumKeywords : List String :=
  ["product", "feature", "service", "solution", "package", "tier"]

/-- `any(keyword in link.lower() for keyword in kws)`. -/
def matchesAny (link : String) (kws : List String) : Bool :=
  kws.any (fun k => containsSubstr (lowerStr link) k)

/-- The priority-sampling reduction applied when more than 400 candidate
links are present (main.py lines 414-435), translated statement by
statement from the source. -/
def sampleLinks (domain : String) (all_links : List String) : List String :=
  let maxLinks := 400
  let high := all_links.filter (fun l => matchesAny l highKeywords)
  let medium := all_links.filter (fun l => matchesAny l mediumKeywords)
  let low := all_links.filter (fun l => !((high ++ medium).contains l))
  let sampled1 := high.take (maxLinks / 3)
  let remaining1 := maxLinks - sampled1.length
  let sampled2 := sampled1 ++ medium.take (remaining1 / 2)
  let remaining2 := maxLinks - sampled2.length
  let sampled3 := sampled2 ++ low.take remaining2
  if sampled3.contains domain then sampled3 else sampled3 ++ [domain]

/-- The budget gate of the ranker: sample only when the candidate count
exceeds 400 (main.py lines 413-414, 435). -/
def budgetStep (domain : String) (links : List String) : List String :=
  if 400 < links.length then sampleLinks domain links else links

/-- Step 1 of the ranker: always include the homepage
(main.py lines 409-410), then apply the budget gate. -/
def prepCandidates (domain : String) (links : List String) : List String :=
  let links' := if links.contains domain then links else links ++ [domain]
  budgetStep domain links'

/-- The sampling reduction as the specification words it: partition by
keyword match into high (pricing keywords), medium (product keywords) and
low (neither); take up to budget/3 high, fill half the remainder with
medium, fill the rest with low; re-add the homepage if dropped. -/
def sampleLinksSpec (domain : String) (all_links : List String) : List String :=
  let budget := 400
  let high := all_links.filter (fun l => matchesAny l highKeywords)
  let medium := all_links.filter (fun l => matchesAny l mediumKeywords)
  let low := all_links.filter
    (fun l => !matchesAny l highKeywords && !matchesAny l mediumKeywords)
  let taken1 := high.take (budget / 3)
  let rem1 := budget - taken1.length
  let taken2 := taken1 ++ medium.take (rem1 / 2)
  let rem2 := budget - taken2.length
  let taken3 := taken2 ++ low.take rem2
  if taken3.contains domain then taken3 else taken3 ++ [domain]

theorem sampleLinks_low_eq (domain : String) (l : List String) :
    sampleLinks domain l = sampleLinksSpec domain l := by
  unfold sampleLinks sampleLinksSpec
  have hfil :
      l.filter (fun x =>
          !((l.filter (fun y => matchesAny y highKeywords) ++
             l.filter (fun y => matchesAny y mediumKeywords)).contains x)) =
        l.filter (fun x =>
          !matchesAny x highKeywords && !matchesAny x mediumKeywords) := by
    apply List.filter_congr
    intro x hx
    simp only [List.contains, List.elem_eq_mem, List.mem_append, List.mem_filter,
      decide_eq_true_eq]
    by_cases h1 : matchesAny x highKeywords <;>
      by_cases h2 : matchesAny x mediumKeywords <;>
      simp [h1, h2, hx]
  simp only [hfil]

/-- C6: For every candidate list whose length exceeds the budget of 400,
the ranker reduces it by priority sampling — partition by keyword match
into high/medium/low priority, take up to budget/3 high links, fill half
the remainder with medium links, fill the rest with low links, and re-add
the homepage if dropped — while lists of length at most 400 are passed
through unsampled.  Stated as: the ranker's budget gate equals the
specification-worded sampling exactly when the list exceeds 400 entries,
and is the identity otherwise; the ranker's candidate preparation is the
homepage-inclusion step followed by this gate. -/
theorem c6_priority_sampling (domain : String) (links : List String) :
    budgetStep domain links =
      (if 400 < links.length then sampleLinksSpec domain links else links) ∧
    prepCandidates domain links =
      budgetStep domain
        (if links.contains domain then links else links ++ [domain]) := by
  constructor
  · unfold budgetStep
    by_cases h : 400 < links.length
    · simp [h, sampleLinks_low_eq]
    · simp [h]
  · rfl

/-! ## Data model: plans and result records -/

/-- One pricing tier as in the analyzer's extraction schema
(main.py lines 653-661).  Numeric prices are modelled as rationals. -/
structure PricingTier where
  type_ : String
  usage_type : String
  billing_period : String
  price : Rat
  currency : String
  features : List String
deriving DecidableEq, Repr, Inhabited

/-- One plan as in the analyzer's extraction schema (main.py lines 649-663). -/
structure Plan where
  name : String
  description : String
  pricing_tiers : List PricingTier
deriving DecidableEq, Repr, Inhabited

/-- The dictionary returned by `analyze_pricing_with_ai` (main.py lines
669-689): either the JSON parsed from the model response (whose keys of
interest are `plans` and `currency`) or an error dictionary.  A field is
`none` when the key is absent. -/
structure AiDict where
  plans : Option (List Plan) := none
  currency : Option String := none
  error : Option String := none
  raw_response : Option String := none
deriving DecidableEq, Repr, Inhabited

/-- A result record as stored in the batch `results` mapping.  Each field is
`none` when the corresponding key is absent from the Python dictionary;
`success` is always present in every record the program stores. -/
structure ResultRecord where
  name : Option String := none
  domain : Option String := none
  website : Option String := none
  source_url : Option String := none
  currency : Option String := none
  plans : Option (List Plan) := none
  content_length : Option Nat := none
  error : Option String := none
  attempted_urls : Option (List String) := none
  raw_response : Option String := none
  success : Bool := false
deriving DecidableEq, Repr, Inhabited

/-! ## Per-site orchestration (`get_pricing_data`, main.py lines 691-762 and
main_failed.py lines 824-890) -/

/-- Oracle for one site's processing: the outcome of route discovery
(`find_pricing_routes`, an exception message on `.error`), the string
returned by the Content Extractor for each URL, and the dictionary returned
by the Pricing Analyzer for each URL/content pair.  In the source both the
extractor and the analyzer catch every exception internally and return a
value, so they are total here. -/
structure SiteOracle where
  routes : Except String (List Url)
  extract : Url → String
  analyze : Url → String → AiDict

/-- The skip filter of the per-site loop (main.py line 733,
main_failed.py line 861): `"Error" in content or len(content) < 100`. -/
def contentRejected (content : String) : Bool :=
  containsSubstr content "Error" || content.length < 100

/-- The success record built at main.py lines 741-747: the analyzer's
dictionary updated with `name`, `domain`, `source_url`, `success` and
`content_length`. -/
def successRecord (d : AiDict) (name domain src : String) (clen : Nat) : ResultRecord :=
  { name := some name, domain := some domain, source_url := some src,
    currency := d.currency, plans := d.plans, error := d.error,
    raw_response := d.raw_response, content_length := some clen, success := true }

/-- The candidate loop of `get_pricing_data` (main.py lines 726-754).
Returns the success record if one was found, together with the list of URLs
passed to the Content Extractor and the list of URLs passed to the Pricing
Analyzer, in order. -/
def tryUrls (o : SiteOracle) (name domain : String) :
    List Url → Option ResultRecord × List Url × List Url
  | [] => (none, [], [])
  | u :: rest =>
    let content := o.extract u
    if contentRejected content then
      let r := tryUrls o name domain rest
      (r.1, u :: r.2.1, r.2.2)
    else
      let d := o.analyze u content
      match d.plans with
      | some (_ :: _) =>
        (some (successRecord d name domain u content.length), [u], [u])
      | _ =>
        let r := tryUrls o name domain rest
        (r.1, u :: r.2.1, u :: r.2.2)

/-- Outcome of one `get_pricing_data` call: the returned record plus the
traces of extractor and analyzer invocations. -/
structure SiteRun where
  result : ResultRecord
  extracted : List Url
  analyzed : List Url
deriving DecidableEq, Repr

/-- Failure record of the route-discovery exception branch
(main.py lines 703-708). -/
def routesFailRecord (name domain e : String) : ResultRecord :=
  { name := some name, domain := some domain,
    error := some ("Error finding pricing routes: " ++ e), success := false }

/-- Failure record of the empty-routes branch (main.py lines 711-716). -/
def noRoutesRecord (name domain : String) : ResultRecord :=
  { name := some name, domain := some domain,
    error := some "No pricing pages found", success := false }

/-- Failure record after exhausting every candidate (main.py lines 756-762). -/
def exhaustedRecord (name domain : String) (attempted : List Url) : ResultRecord :=
  { name := some name, domain := some domain,
    error := some "All URLs failed to yield valid pricing data",
    attempted_urls := some attempted, success := false }

/-- Packaging of the loop outcome as the value returned by
`get_pricing_data`: the success record when the loop found one, otherwise
the all-URLs-failed record over the tried list (main.py lines 748, 756-762). -/
def finishRun (name domain : String) (tried : List Url) :
    Option ResultRecord × List Url × List Url → SiteRun
  | (some r, es, as) => ⟨r, es, as⟩
  | (none, es, as) => ⟨exhaustedRecord name domain tried, es, as⟩

/-- `get_pricing_data` of the non-browser variant (main.py lines 691-762):
route discovery, truncation of the candidate list to the first
`max_urls_to_try = 5` entries, then the first-match-wins candidate loop. -/
def get_pricing_data (o : SiteOracle) (domain name : String) : SiteRun :=
  match o.routes with
  | .error e => ⟨routesFailRecord name domain e, [], []⟩
  | .ok pricing_urls =>
    if pricing_urls.isEmpty then ⟨noRoutesRecord name domain, [], []⟩
    else
      let tried := pricing_urls.take 5
      finishRun name domain tried (tryUrls o name domain tried)

/-- `get_pricing_data` of the browser variant (main_failed.py lines
824-890): identical except that the candidate list is not truncated. -/
def get_pricing_data_browser (o : SiteOracle) (domain name : String) : SiteRun :=
  match o.routes with
  | .error e => ⟨routesFailRecord name domain e, [], []⟩
  | .ok pricing_urls =>
    if pricing_urls.isEmpty then ⟨noRoutesRecord name domain, [], []⟩
    else
      finishRun name domain pricing_urls (tryUrls o name domain pricing_urls)

/-- A candidate URL succeeds when its extracted content passes the skip
filter and its analysis yields a non-empty `plans` list. -/
def goodUrl (o : SiteOracle) (u : Url) : Bool :=
  !contentRejected (o.extract u) &&
    (match (o.analyze u (o.extract u)).plans with
     | some (_ :: _) => true
     | _ => false)

/-- The first succeeding candidate of a list, if any. -/
def firstGood (o : SiteOracle) : List Url → Option Url
  | [] => none
  | u :: rest => if goodUrl o u then some u else firstGood o rest

theorem cons_prefix_cons {a : Url} {l₁ l₂ : List Url} (h : l₁ <+: l₂) :
    a :: l₁ <+: a :: l₂ := by
  obtain ⟨t, ht⟩ := h
  exact ⟨t, by simp [← ht]⟩

/-- Full characterization of the candidate loop: the analyzer trace is the
extractor trace filtered by the skip gate; the extractor trace is a prefix
of the candidate list; and the loop stops exactly at the first succeeding
candidate, extracting nothing beyond it. -/
theorem tryUrls_spec (o : SiteOracle) (n d : String) (l : List Url) :
    (tryUrls o n d l).2.2 =
      (tryUrls o n d l).2.1.filter (fun u => !contentRejected (o.extract u)) ∧
    (tryUrls o n d l).2.1 <+: l ∧
    (match firstGood o l with
     | some u =>
        (tryUrls o n d l).2.1 = l.takeWhile (fun v => !goodUrl o v) ++ [u] ∧
        (tryUrls o n d l).1 =
          some (successRecord (o.analyze u (o.extract u)) n d u (o.extract u).length)
     | none =>
        (tryUrls o n d l).2.1 = l ∧ (tryUrls o n d l).1 = none) := by
  induction l with
  | nil => simp [tryUrls, firstGood]
  | cons u rest ih =>
    obtain ⟨ih1, ih2, ih3⟩ := ih
    by_cases hrej : contentRejected (o.extract u)
    · have hgood : goodUrl o u = false := by simp [goodUrl, hrej]
      simp only [tryUrls, hrej, if_true, firstGood, hgood, if_false,
        Bool.false_eq_true, List.takeWhile_cons, Bool.not_false, if_true]
      refine ⟨by simp [hrej, ih1], cons_prefix_cons ih2, ?_⟩
      revert ih3
      cases firstGood o rest with
      | none => intro ih3; exact ⟨by simp [ih3.1], ih3.2⟩
      | some w => intro ih3; exact ⟨by simp [ih3.1], ih3.2⟩
    · rcases hp : (o.analyze u (o.extract u)).plans with _ | ⟨_ | ⟨p, ps⟩⟩
      · have hgood : goodUrl o u = false := by simp [goodUrl, hrej, hp]
        simp only [tryUrls, hrej, if_false, hp, firstGood, hgood,
          Bool.false_eq_true, List.takeWhile_cons, Bool.not_false, if_true]
        refine ⟨by simp [hrej, ih1], cons_prefix_cons ih2, ?_⟩
        revert ih3
        cases firstGood o rest with
        | none => intro ih3; exact ⟨by simp [ih3.1], ih3.2⟩
        | some w => intro ih3; exact ⟨by simp [ih3.1], ih3.2⟩
      · have hgood : goodUrl o u = false := by simp [goodUrl, hrej, hp]
        simp only [tryUrls, hrej, if_false, hp, firstGood, hgood,
          Bool.false_eq_true, List.takeWhile_cons, Bool.not_false, if_true]
        refine ⟨by simp [hrej, ih1], cons_prefix_cons ih2, ?_⟩
        revert ih3
        cases firstGood o rest with
        | none => intro ih3; exact ⟨by simp [ih3.1], ih3.2⟩
        | some w => intro ih3; exact ⟨by simp [ih3.1], ih3.2⟩
      · have hgood : goodUrl o u = true := by simp [goodUrl, hrej, hp]
        simp only [tryUrls, hrej, if_false, hp, firstGood, hgood, if_true,
          List.takeWhile_cons, Bool.not_true]
        exact ⟨by simp [hrej], ⟨rest, rfl⟩, by simp [hp]⟩

/-- The first-match-wins contract of one orchestrator run over the tried
candidate list: the extractor trace is a prefix of the tried list, every
analyzed URL was extracted, and if some candidate succeeds the run returns
success with that candidate as `source_url` having extracted exactly the
failing prefix plus the winner — nothing after it — while if none succeeds
the run fails after extracting the whole tried list. -/
def firstMatchSpec (o : SiteOracle) (run : SiteRun) (tried : List Url) : Prop :=
  run.extracted <+: tried ∧
  (∀ u ∈ run.analyzed, u ∈ run.extracted) ∧
  (match firstGood o tried with
   | some u =>
      run.result.success = true ∧
      run.result.source_url = some u ∧
      run.extracted = tried.takeWhile (fun v => !goodUrl o v) ++ [u]
   | none =>
      run.result.success = false ∧
      run.extracted = tried)

theorem finishRun_spec (o : SiteOracle) (n d : String) (tried : List Url) :
    firstMatchSpec o (finishRun n d tried (tryUrls o n d tried)) tried := by
  obtain ⟨h1, h2, h3⟩ := tryUrls_spec o n d tried
  rcases htr : tryUrls o n d tried with ⟨r?, es, as⟩
  rw [htr] at h1 h2 h3
  dsimp only at h1 h2
  unfold firstMatchSpec
  revert h3
  cases hfg : firstGood o tried with
  | some w =>
    intro h3
    obtain ⟨hes, hr⟩ := h3
    dsimp only at hes hr
    subst hr
    refine ⟨?_, ?_, ?_⟩
    · simpa [finishRun] using h2
    · intro u hu
      simp only [finishRun] at hu ⊢
      rw [h1] at hu
      exact (List.mem_filter.mp hu).1
    · exact ⟨by simp [finishRun, successRecord], by simp [finishRun, successRecord], by
        simpa [finishRun] using hes⟩
  | none =>
    intro h3
    obtain ⟨hes, hr⟩ := h3
    dsimp only at hes hr
    subst hr
    refine ⟨?_, ?_, ?_⟩
    · simpa [finishRun] using h2
    · intro u hu
      simp only [finishRun] at hu ⊢
      rw [h1] at hu
      exact (List.mem_filter.mp hu).1
    · exact ⟨by simp [finishRun, exhaustedRecord], by simpa [finishRun] using hes⟩

/-- C1: For every site, the per-site orchestrator iterates the ranked
pricing URLs strictly in order, trying at most the first 5 of them in the
non-browser variant (no cap in the browser variant), and returns a success
result whose `source_url` is the first candidate URL whose extracted
content passes the skip filter and whose analysis yields a non-empty plans
list; no candidate after that URL is ever passed to the Content Extractor
or the Pricing Analyzer.  `firstMatchSpec` states this: the extractor
trace is exactly the failing prefix plus the winning URL (so later
candidates are untouched), and the analyzer trace is contained in it. -/
theorem c1_first_match_wins (o : SiteOracle) (domain name : String)
    (urls : List Url) (hroutes : o.routes = .ok urls) (hne : urls ≠ []) :
    firstMatchSpec o (get_pricing_data o domain name) (urls.take 5) ∧
    firstMatchSpec o (get_pricing_data_browser o domain name) urls := by
  have hempty : urls.isEmpty = false := by
    cases urls with
    | nil => exact absurd rfl hne
    | cons a l => rfl
  constructor
  · unfold get_pricing_data
    rw [hroutes]
    simp only [hempty, Bool.false_eq_true, if_false]
    exact finishRun_spec o name domain (urls.take 5)
  · unfold get_pricing_data_browser
    rw [hroutes]
    simp only [hempty, Bool.false_eq_true, if_false]
    exact finishRun_spec o name domain urls

/-- A 120-character content string, comfortably above the 100-character
skip threshold and free of the substring "Error". -/
def longContent : String := String.mk (List.replicate 120 'x')

/-- A concrete plan used by the witness oracles. -/
def planA : Plan := ⟨"Pro", "Pro plan", []⟩

/-- Concrete witness oracle: three ranked URLs; the first extracts content
that is too short, the second extracts good content whose analysis yields
one plan, the third would also succeed but must never be reached. -/
def siteO1 : SiteOracle :=
  { routes := .ok ["https://acme.test/a", "https://acme.test/pricing", "https://acme.test/c"],
    extract := fun u => if u = "https://acme.test/a" then "short" else longContent,
    analyze := fun u _ =>
      if u = "https://acme.test/a" then {}
      else { plans := some [planA], currency := some "usd" } }

theorem c1_first_match_wins_witness :
    siteO1.routes =
      .ok ["https://acme.test/a", "https://acme.test/pricing", "https://acme.test/c"] ∧
    (["https://acme.test/a", "https://acme.test/pricing", "https://acme.test/c"] : List Url) ≠ [] ∧
    (firstMatchSpec siteO1 (get_pricing_data siteO1 "https://acme.test" "Acme")
        ((["https://acme.test/a", "https://acme.test/pricing", "https://acme.test/c"] : List Url).take 5) ∧
     firstMatchSpec siteO1 (get_pricing_data_browser siteO1 "https://acme.test" "Acme")
        ["https://acme.test/a", "https://acme.test/pricing", "https://acme.test/c"]) :=
  ⟨rfl, by decide,
    c1_first_match_wins siteO1 "https://acme.test" "Acme" _ rfl (by decide)⟩

/-- The analyzer gate of one orchestrator run: among the URLs whose content
was extracted, exactly those whose content is at least 100 characters long
and nowhere contains the substring "Error" are passed to the Pricing
Analyzer. -/
def analyzerGateSpec (o : SiteOracle) (run : SiteRun) : Prop :=
  ∀ u ∈ run.extracted,
    (u ∈ run.analyzed ↔
      100 ≤ (o.extract u).length ∧ containsSubstr (o.extract u) "Error" = false)

theorem finishRun_gate (o : SiteOracle) (n d : String) (tried : List Url) :
    analyzerGateSpec o (finishRun n d tried (tryUrls o n d tried)) := by
  obtain ⟨h1, _, _⟩ := tryUrls_spec o n d tried
  rcases htr : tryUrls o n d tried with ⟨r?, es, as⟩
  rw [htr] at h1
  dsimp only at h1
  intro u hu
  have hmem : u ∈ (finishRun n d tried (r?, es, as)).analyzed ↔
      u ∈ as := by cases r? <;> simp [finishRun]
  have hmem' : u ∈ (finishRun n d tried (r?, es, as)).extracted ↔
      u ∈ es := by cases r? <;> simp [finishRun]
  rw [hmem]
  rw [hmem'] at hu
  rw [h1, List.mem_filter]
  constructor
  · rintro ⟨-, hgate⟩
    simp only [contentRejected, Bool.not_eq_true', Bool.or_eq_false_iff,
      decide_eq_false_iff_not, Nat.not_lt] at hgate
    exact ⟨hgate.2, hgate.1⟩
  · rintro ⟨hlen, herr⟩
    refine ⟨hu, ?_⟩
    simp only [contentRejected, Bool.not_eq_true', Bool.or_eq_false_iff,
      decide_eq_false_iff_not, Nat.not_lt]
    exact ⟨herr, hlen⟩

/-- C10: For every extracted content string, the per-site orchestrator
passes it to the Pricing Analyzer if and only if its length is at least
100 characters and the substring "Error" does not occur anywhere in it;
consequently a successfully extracted pricing page whose body text merely
contains the word "Error" is skipped and never analyzed.  Stated for both
pipeline variants over every oracle. -/
theorem c10_analyzer_gate (o : SiteOracle) (domain name : String) :
    analyzerGateSpec o (get_pricing_data o domain name) ∧
    analyzerGateSpec o (get_pricing_data_browser o domain name) := by
  constructor
  · unfold get_pricing_data
    cases hroutes : o.routes with
    | error e => intro u hu; simp [routesFailRecord] at hu
    | ok urls =>
      by_cases hempty : urls.isEmpty
      · simp only [hempty, if_true]
        intro u hu
        simp [noRoutesRecord] at hu
      · simp only [hempty, if_false]
        exact finishRun_gate o name domain (urls.take 5)
  · unfold get_pricing_data_browser
    cases hroutes : o.routes with
    | error e => intro u hu; simp [routesFailRecord] at hu
    | ok urls =>
      by_cases hempty : urls.isEmpty
      · simp only [hempty, if_true]
        intro u hu
        simp [noRoutesRecord] at hu
      · simp only [hempty, if_false]
        exact finishRun_gate o name domain urls

/-- A 125-character content string that contains the substring "Error"
even though it is a successfully extracted page body. -/
def errorTaintedContent : String :=
  String.mk (List.replicate 60 'y') ++ "Error" ++ String.mk (List.replicate 60 'z')

/-- Concrete witness oracle for the analyzer gate: the first candidate's
content is long but contains "Error", the second candidate succeeds. -/
def siteO2 : SiteOracle :=
  { routes := .ok ["https://w.test/a", "https://w.test/pricing"],
    extract := fun u => if u = "https://w.test/a" then errorTaintedContent else longContent,
    analyze := fun _ _ => { plans := some [planA], currency := some "usd" } }

set_option maxRecDepth 4096 in
theorem c10_analyzer_gate_witness :
    "https://w.test/a" ∈ (get_pricing_data siteO2 "https://w.test" "W").extracted ∧
    ("https://w.test/a" ∈ (get_pricing_data siteO2 "https://w.test" "W").analyzed ↔
      100 ≤ (siteO2.extract "https://w.test/a").length ∧
        containsSubstr (siteO2.extract "https://w.test/a") "Error" = false) :=
  ⟨by decide, (c10_analyzer_gate siteO2 "https://w.test" "W").1 "https://w.test/a" (by decide)⟩

/-! ## Content Extractor (`extract_pricing_content`, main.py lines 571-633;
browser variant main_failed.py lines 84-101, 103-190, 192-213) -/

/-- A fetched page after markup parsing, as the extractor consumes it:
the body element's text (`none` when no body tag exists, after script,
style, nav, footer and header elements were removed), whether any of the
known pricing selectors matches, and the texts of the `div[class*="border-"]`
card candidates.  The last two fields exist only to feed the logging-only
pricing-indicator detection. -/
structure Page where
  bodyText : Option String
  selectorHit : Bool
  borderCardTexts : List String
deriving Repr, Inhabited

/-- Oracle for the plain-HTTP fetch: `.error msg` when the request raises
(the exception text), otherwise the status code and the parsed page. -/
structure ContentEnv where
  fetch : Url → Except String (Nat × Page)

/-- Currency tokens of the card-based detection (main.py line 612). -/
def currencyTokens : List String := ["PLN", "$", "€", "£"]

/-- The price regular expression of main.py line 618,
`(?:\d+[.,]?\d*\s?(?:PLN|\$|€|£))`, matched at one position: one or more
digits, optionally a dot or comma followed by further digits, optionally a
single whitespace character, then one of the currency tokens. -/
def priceMatchAt : List Char → Bool
  | [] => false
  | c :: cs =>
    if c.isDigit then
      let afterInt := cs.dropWhile Char.isDigit
      let afterFrac :=
        match afterInt with
        | d :: ds => if d = '.' ∨ d = ',' then ds.dropWhile Char.isDigit else afterInt
        | [] => afterInt
      let afterSpace :=
        match afterFrac with
        | w :: ws => if w.isWhitespace then ws else afterFrac
        | [] => afterFrac
      currencyTokens.any (fun t => listPrefixB t.data afterSpace)
    else false

/-- `re.search` of the price pattern: a match exists at some position. -/
def priceRegexHit : List Char → Bool
  | [] => false
  | c :: cs => priceMatchAt (c :: cs) || priceRegexHit cs

/-- The logging-only pricing-indicator detection (main.py lines 593-618):
a pricing selector match, a currency symbol inside a border-card, or a
price-regex hit in the full body text. -/
def pricingFound (page : Page) (fullBodyText : String) : Bool :=
  page.selectorHit ||
    page.borderCardTexts.any (fun t => currencyTokens.any (fun c => containsSubstr t c)) ||
    priceRegexHit fullBodyText.data

/-- The body of the extractor applied to one fetched response
(main.py lines 577-628). -/
def contentOfResponse (status : Nat) (page : Page) : String :=
  if status ≠ 200 then "Error: HTTP " ++ toString status
  else
    match page.bodyText with
    | none => "Error: No body tag found"
    | some full_body_text =>
      let _pricing_found := pricingFound page full_body_text
      String.mk (full_body_text.data.take 50000)

/-- `extract_pricing_content` of the non-browser variant (main.py lines
571-633): fetch, error strings on non-200 / missing body / exception,
otherwise the body text capped at 50,000 characters. -/
def extract_pricing_content (env : ContentEnv) (url : Url) : String :=
  match env.fetch url with
  | .error e => "Error extracting content: " ++ e
  | .ok (status, page) => contentOfResponse status page

/-- Oracle for the rendering-capable fetch of the browser variant: the
body text computed by `_extract_with_playwright` before the length cap
(`none` when the navigation times out or raises, in which case the source
returns the empty string). -/
structure BrowserEnv where
  pwText : Url → Option String

/-- `_extract_with_playwright` (main_failed.py lines 103-190): rendered
body text capped at 50,000 characters, or the empty string on error. -/
def extract_with_playwright (benv : BrowserEnv) (url : Url) : String :=
  match benv.pwText url with
  | none => ""
  | some body_text => String.mk (body_text.data.take 50000)

/-- `_extract_with_requests` (main_failed.py lines 192-213): like the
non-browser extractor but with a plain "Error: " exception prefix and no
indicator detection. -/
def extract_with_requests (env : ContentEnv) (url : Url) : String :=
  match env.fetch url with
  | .error e => "Error: " ++ e
  | .ok (status, page) =>
    if status ≠ 200 then "Error: HTTP " ++ toString status
    else
      match page.bodyText with
      | none => "Error: No body tag found"
      | some t => String.mk (t.data.take 50000)

/-- `extract_pricing_content` of the browser variant (main_failed.py lines
84-101): rendered fetch first, plain fetch as fallback, each accepted only
above 100 characters, otherwise a fixed error string. -/
def extract_pricing_content_browser (benv : BrowserEnv) (env : ContentEnv) (url : Url) : String :=
  let playwright_content := extract_with_playwright benv url
  if 100 < playwright_content.length then playwright_content
  else
    let requests_content := extract_with_requests env url
    if 100 < requests_content.length then requests_content
    else "Error: Could not extract content with either method"

/-- C7: For every URL, the Content Extractor returns either the page's
body text as a string of at most 50,000 characters or an error string
prefixed "Error"; the pricing-indicator detection is computed only for
logging and never changes the returned value — when extraction succeeds,
the full (capped) body text is returned even when no pricing indicator was
detected.  The second conjunct states detection-independence: the value
returned for a response depends only on the status and the body text,
never on the detection inputs; the third covers the browser variant's
return contract. -/
theorem c7_extractor_contract (env : ContentEnv) (benv : BrowserEnv) (url : Url) :
    ((∃ t, extract_pricing_content env url = "Error" ++ t) ∨
      (∃ status page body, env.fetch url = .ok (status, page) ∧ status = 200 ∧
        page.bodyText = some body ∧
        extract_pricing_content env url = String.mk (body.data.take 50000) ∧
        (extract_pricing_content env url).length ≤ 50000)) ∧
    (∀ status p p', p.bodyText = p'.bodyText →
      contentOfResponse status p = contentOfResponse status p') ∧
    ((∃ t, extract_pricing_content_browser benv env url = "Error" ++ t) ∨
      (extract_pricing_content_browser benv env url).length ≤ 50000) := by
  refine ⟨?_, ?_, ?_⟩
  · unfold extract_pricing_content
    cases hf : env.fetch url with
    | error e =>
      dsimp only
      exact Or.inl ⟨" extracting content: " ++ e, by
        rw [show ("Error extracting content: " : String) = "Error" ++ " extracting content: "
          from rfl, String.append_assoc]⟩
    | ok sp =>
      rcases sp with ⟨status, page⟩
      dsimp only
      by_cases hst : status = 200
      · cases hb : page.bodyText with
        | none =>
          refine Or.inl ⟨": No body tag found", ?_⟩
          simp [contentOfResponse, hst, hb]
        | some body =>
          refine Or.inr ⟨status, page, body, rfl, hst, hb, ?_, ?_⟩
          · simp [contentOfResponse, hst, hb]
          · have hcr : contentOfResponse status page = String.mk (body.data.take 50000) := by
              simp [contentOfResponse, hst, hb]
            rw [hcr]
            exact List.length_take_le _ _
      · refine Or.inl ⟨": HTTP " ++ toString status, ?_⟩
        have hcr : contentOfResponse status page = "Error: HTTP " ++ toString status := by
          simp [contentOfResponse, hst]
        rw [hcr, show ("Error: HTTP " : String) = "Error" ++ ": HTTP " from rfl,
          String.append_assoc]
  · intro status p p' hbody
    unfold contentOfResponse
    rw [hbody]
  · unfold extract_pricing_content_browser
    by_cases hpw : 100 < (extract_with_playwright benv url).length
    · simp only [hpw, if_true]
      refine Or.inr ?_
      unfold extract_with_playwright
      cases benv.pwText url with
      | none => simp
      | some t => exact List.length_take_le _ _
    · simp only [hpw, if_false]
      by_cases hrc : 100 < (extract_with_requests env url).length
      · simp only [hrc, if_true]
        unfold extract_with_requests
        cases hf : env.fetch url with
        | error e =>
          dsimp only
          exact Or.inl ⟨": " ++ e, by
            rw [show ("Error: " : String) = "Error" ++ ": " from rfl, String.append_assoc]⟩
        | ok sp =>
          rcases sp with ⟨status, page⟩
          dsimp only
          by_cases hst : status = 200
          · cases hb : page.bodyText with
            | none => exact Or.inl ⟨": No body tag found", by simp [hst, hb]⟩
            | some body =>
              refine Or.inr ?_
              subst hst
              simp only [ne_eq, not_true_eq_false, if_false, hb]
              exact List.length_take_le _ _
          · refine Or.inl ⟨": HTTP " ++ toString status, ?_⟩
            simp only [if_pos hst]
            rw [show ("Error: HTTP " : String) = "Error" ++ ": HTTP " from rfl,
              String.append_assoc]
      · simp only [hrc, if_false]
        exact Or.inl ⟨": Could not extract content with either method", rfl⟩

/-- A page with a body and no pricing indicators at all. -/
def plainPage : Page := ⟨some longContent, false, []⟩

/-- The same body with every detection input firing. -/
def indicatorPage : Page := ⟨some longContent, true, ["Pro card $9"]⟩

/-- Trivial fetch environment for the extractor witness. -/
def contentEnv1 : ContentEnv := ⟨fun _ => .ok (200, plainPage)⟩

/-- Trivial browser environment for the extractor witness. -/
def browserEnv1 : BrowserEnv := ⟨fun _ => none⟩

set_option maxRecDepth 4096 in
theorem c7_extractor_contract_witness :
    indicatorPage.bodyText = plainPage.bodyText ∧
    contentOfResponse 200 indicatorPage = contentOfResponse 200 plainPage ∧
    extract_pricing_content contentEnv1 "https://x.test" = longContent :=
  ⟨rfl,
    (c7_extractor_contract contentEnv1 browserEnv1 "https://x.test").2.1 200
      indicatorPage plainPage rfl,
    by decide⟩

/-! ## Existence Checker (`_check_url_exists`, main.py lines 554-569 and
main_failed.py lines 275-303) -/

/-- One network request issued by an existence check. -/
inductive Req where
  | headProbe (u : Url)
  | getFetch (u : Url)
  | browserNav (u : Url)
deriving DecidableEq, Repr

/-- Network oracle for the existence checks: the status code answered to a
HEAD request, a GET request, and a browser navigation (`none` for a raised
exception; for the navigation, `some none` models a `None` response
object). -/
structure Net where
  headStatus : Url → Option Nat
  getStatus : Url → Option Nat
  gotoResp : Url → Option (Option Nat)

/-- `_check_url_exists` of the non-browser variant (main.py lines 554-569):
HEAD first (true exactly on status 200), then GET (true exactly on status
200), both with redirects and an 8-second timeout; any exception falls
through to the next tier.  Returns the verdict and the trace of issued
requests. -/
def check_url_exists (n : Net) (url : Url) : Bool × List Req :=
  if n.headStatus url = some 200 then (true, [Req.headProbe url])
  else
    match n.getStatus url with
    | some s => (s == 200, [Req.headProbe url, Req.getFetch url])
    | none => (false, [Req.headProbe url, Req.getFetch url])

/-- Third tier of the browser-variant check (main_failed.py lines
298-303): HEAD as the last attempt, true on status below 400. -/
def checkBrowserTier3 (n : Net) (url : Url) : Bool × List Req :=
  match n.headStatus url with
  | some s => (decide (s < 400), [Req.getFetch url, Req.browserNav url, Req.headProbe url])
  | none => (false, [Req.getFetch url, Req.browserNav url, Req.headProbe url])

/-- Second tier of the browser-variant check (main_failed.py lines
287-296): a browser navigation, true when a response object exists with a
truthy status below 400, otherwise fall through to the HEAD tier. -/
def checkBrowserTier2 (n : Net) (url : Url) : Bool × List Req :=
  match n.gotoResp url with
  | some (some s) =>
    if s ≠ 0 ∧ s < 400 then (true, [Req.getFetch url, Req.browserNav url])
    else checkBrowserTier3 n url
  | _ => checkBrowserTier3 n url

/-- `_check_url_exists` of the browser variant (main_failed.py lines
275-303): GET first (true on any status below 400), then the browser
navigation tier, then HEAD as the last attempt. -/
def check_url_exists_browser (n : Net) (url : Url) : Bool × List Req :=
  match n.getStatus url with
  | some s =>
    if s < 400 then (true, [Req.getFetch url])
    else checkBrowserTier2 n url
  | none => checkBrowserTier2 n url

/-- Network oracle whose every probe succeeds with status 200. -/
def netAll200 : Net := ⟨fun _ => some 200, fun _ => some 200, fun _ => some (some 200)⟩

/-- Network oracle whose every probe raises. -/
def netAllFail : Net := ⟨fun _ => none, fun _ => none, fun _ => none⟩

/-- C4 counterexample: the claim asserts that for every URL the Existence
Checker first issues a HEAD probe and never goes beyond two tiers, citing
both variants; but the browser variant (main_failed.py lines 275-303)
issues a GET first — when everything succeeds its trace is a single GET,
not a HEAD — and when everything fails it issues three requests
(GET, browser navigation, HEAD). -/
theorem c4_counterexample :
    (check_url_exists_browser netAll200 "https://x.test").2 = [Req.getFetch "https://x.test"] ∧
    (check_url_exists_browser netAll200 "https://x.test").2.head? ≠
      some (Req.headProbe "https://x.test") ∧
    (check_url_exists_browser netAllFail "https://x.test").2 =
      [Req.getFetch "https://x.test", Req.browserNav "https://x.test",
        Req.headProbe "https://x.test"] ∧
    (check_url_exists_browser netAllFail "https://x.test").2.length = 3 := by
  refine ⟨rfl, ?_, rfl, rfl⟩
  decide

/-- C4 amended: in the non-browser variant (main.py lines 554-569) the
checker first issues a HEAD probe with redirect-following and a short
timeout and returns true with no further request exactly when that probe
reports status 200; otherwise (non-200 or network error) it issues a
single GET with the same timeout and redirect policy and returns true iff
the GET status is 200; failure of both tiers yields false and no more than
two requests are ever issued.  The browser variant instead issues a GET
first (success on any status below 400), then a browser navigation, then a
HEAD, with at most three requests. -/
theorem c4_existence_checker_amended (n : Net) (url : Url) :
    check_url_exists n url =
      (if n.headStatus url = some 200 then (true, [Req.headProbe url])
       else ((n.getStatus url == some 200 : Bool),
         [Req.headProbe url, Req.getFetch url])) ∧
    (check_url_exists n url).2.head? = some (Req.headProbe url) ∧
    (check_url_exists n url).2.length ≤ 2 ∧
    (check_url_exists_browser n url).2.head? = some (Req.getFetch url) ∧
    (check_url_exists_browser n url).2.length ≤ 3 := by
  refine ⟨?_, ?_, ?_, ?_, ?_⟩
  · unfold check_url_exists
    by_cases h : n.headStatus url = some 200
    · simp [h]
    · simp only [h, if_false]
      cases hg : n.getStatus url with
      | some s => simp
      | none => simp
  · unfold check_url_exists
    by_cases h : n.headStatus url = some 200
    · simp [h]
    · simp only [h, if_false]
      cases hg : n.getStatus url <;> simp
  · unfold check_url_exists
    by_cases h : n.headStatus url = some 200
    · simp [h]
    · simp only [h, if_false]
      cases hg : n.getStatus url <;> simp
  · unfold check_url_exists_browser checkBrowserTier2 checkBrowserTier3
    cases hg : n.getStatus url with
    | some s =>
      by_cases hs : s < 400
      · simp [hs]
      · simp only [hs, if_false]
        cases n.gotoResp url with
        | none => cases n.headStatus url <;> simp
        | some r =>
          cases r with
          | none => cases n.headStatus url <;> simp
          | some t =>
            by_cases ht : t ≠ 0 ∧ t < 400
            · simp [ht]
            · simp only [ht, if_false]
              cases n.headStatus url <;> simp
    | none =>
      cases n.gotoResp url with
      | none => cases n.headStatus url <;> simp
      | some r =>
        cases r with
        | none => cases n.headStatus url <;> simp
        | some t =>
          by_cases ht : t ≠ 0 ∧ t < 400
          · simp [ht]
          · simp only [ht, if_false]
            cases n.headStatus url <;> simp
  · unfold check_url_exists_browser checkBrowserTier2 checkBrowserTier3
    cases hg : n.getStatus url with
    | some s =>
      by_cases hs : s < 400
      · simp [hs]
      · simp only [hs, if_false]
        cases n.gotoResp url with
        | none => cases n.headStatus url <;> simp
        | some r =>
          cases r with
          | none => cases n.headStatus url <;> simp
          | some t =>
            by_cases ht : t ≠ 0 ∧ t < 400
            · simp [ht]
            · simp only [ht, if_false]
              cases n.headStatus url <;> simp
    | none =>
      cases n.gotoResp url with
      | none => cases n.headStatus url <;> simp
      | some r =>
        cases r with
        | none => cases n.headStatus url <;> simp
        | some t =>
          by_cases ht : t ≠ 0 ∧ t < 400
          · simp [ht]
          · simp only [ht, if_false]
            cases n.headStatus url <;> simp

/-! ## Pricing-URL Ranker (`_ai_identify_pricing_links`, main.py lines
404-510, and `_fallback_pricing_urls`, main.py lines 512-537) -/

/-- Minimal JSON value type for the dictionary decoded from the model
response. -/
inductive Json where
  | null : Json
  | boolVal : Bool → Json
  | numVal : Rat → Json
  | strVal : String → Json
  | arr : List Json → Json
  | obj : List (String × Json) → Json

/-- Split a character list at the first occurrence of `"://"`. -/
def breakSchemeSep : List Char → Option (List Char × List Char)
  | [] => none
  | c :: cs =>
    if listPrefixB [':', '/', '/'] (c :: cs) then some ([], cs.drop 2)
    else
      match breakSchemeSep cs with
      | some (pre, post) => some (c :: pre, post)
      | none => none

/-- The scheme-and-host prefix of an absolute URL, e.g.
`https://acme.test` of `https://acme.test/x`. -/
def schemeHost (url : String) : String :=
  match breakSchemeSep url.data with
  | some (scheme, rest) =>
      String.mk (scheme ++ [':', '/', '/'] ++ rest.takeWhile (fun c => c ≠ '/'))
  | none => url

/-- `urllib.parse.urljoin` restricted to the shapes this program uses:
root-relative references replace the base's path; other references are
appended to a domain-root base. -/
def urljoin (base rel : String) : String :=
  if listPrefixB ['/'] rel.data then schemeHost base ++ rel
  else if base.data.getLast? = some '/' then base ++ rel
  else base ++ "/" ++ rel

/-- `re.search(r'\x7b.*\x7d', text, re.DOTALL)`: the span from the first
opening brace to the last closing brace, if such a span exists. -/
def braceSpan (s : String) : Option String :=
  let openBrace : Char := Char.ofNat 123
  let closeBrace : Char := Char.ofNat 125
  let fromOpen := s.data.dropWhile (fun c => c ≠ openBrace)
  let span := (fromOpen.reverse.dropWhile (fun c => c ≠ closeBrace)).reverse
  if span.isEmpty then none else some (String.mk span)

/-- Python iteration `for url in value` over a decoded JSON value
(main.py line 493): a list yields its elements — non-string entries are
dropped because `_check_url_exists` on a non-string raises inside its own
handlers and returns False before any network access — a dict yields its
keys, and a string yields its characters as one-character strings.  A
number, boolean or null is not iterable: the loop raises `TypeError`,
modelled as `none`. -/
def jsonIterStrings : Json → Option (List String)
  | .arr xs =>
    some (xs.filterMap (fun x => match x with | .strVal s => some s | _ => none))
  | .obj fields => some (fields.map Prod.fst)
  | .strVal s => some (s.data.map (fun c => String.mk [c]))
  | _ => none

/-- `result.get('pricing_urls', [])` (main.py line 489) followed by the
iteration of main.py line 493: a missing key iterates the default empty
list; a non-iterable value raises `TypeError` in the loop, and a decoded
value that is not a dict raises on `.get` — both exceptions reach the
handler at main.py lines 507-510, which answers with the fallback, so
both are `none` here. -/
def pricingUrlsIter : Json → Option (List String)
  | .obj fields =>
    match fields.lookup "pricing_urls" with
    | none => some []
    | some v => jsonIterStrings v
  | _ => none

/-- Oracle for the ranker: the liveness verdict used by
`_check_url_exists`, the model response for a candidate list (`none` when
the chat call raises), and `json.loads` on the extracted brace span
(`none` when decoding raises). -/
structure RankEnv where
  alive : Url → Bool
  ai : List Url → Option String
  jsonLoads : String → Option Json

/-- The pricing keywords of the fallback method (main.py line 516). -/
def fallbackKeywords : List String :=
  ["pricing", "price", "plans", "plan", "subscribe", "buy", "order"]

/-- The fixed pricing paths probed by the fallback (main.py line 530). -/
def commonPricingPaths : List String :=
  ["/pricing", "/price", "/plans", "/plan", "/subscription"]

/-- `_fallback_pricing_urls` (main.py lines 512-537): keyword-matching
candidates that are live, then the homepage if live and missing, then the
live common pricing paths not already present. -/
def fallback_pricing_urls (env : RankEnv) (domain : String) (all_links : List String) :
    List String :=
  let fallback_urls := all_links.filter
    (fun l => matchesAny l fallbackKeywords && env.alive l)
  let fallback_urls :=
    if !fallback_urls.contains domain && env.alive domain
    then fallback_urls ++ [domain] else fallback_urls
  commonPricingPaths.foldl
    (fun acc path =>
      let u := urljoin domain path
      if env.alive u && !acc.contains u then acc ++ [u] else acc)
    fallback_urls

/-- `_ai_identify_pricing_links` (main.py lines 404-510): homepage
inclusion and budget sampling, then the model call; its response is mined
for a brace-delimited span which is JSON-decoded, and the values obtained
by iterating `pricing_urls` are filtered by the Existence Checker.  A
raised model call, a response without a brace span, a failing JSON
decode, or the `TypeError` raised when `pricing_urls` is not iterable all
reach the exception handler and fall back to `_fallback_pricing_urls` on
the prepared candidate list. -/
def ai_identify_pricing_links (env : RankEnv) (domain : String) (links0 : List String) :
    List String :=
  let all_links := prepCandidates domain links0
  match env.ai all_links with
  | none => fallback_pricing_urls env domain all_links
  | some response_text =>
    match braceSpan response_text with
    | none => fallback_pricing_urls env domain all_links
    | some span =>
      match env.jsonLoads span with
      | none => fallback_pricing_urls env domain all_links
      | some j =>
        match pricingUrlsIter j with
        | none => fallback_pricing_urls env domain all_links
        | some pricing_urls => pricing_urls.filter env.alive

/-- A well-formed model response whose JSON object carries an empty
`pricing_urls` array. -/
def aiEmptyResponse : String := "\x7b \"pricing_urls\": [] \x7d"

/-- Ranker environment for the counterexample: every URL is live, the
model call succeeds with `aiEmptyResponse`, and JSON decoding succeeds on
exactly that span, yielding an object with an empty `pricing_urls` array. -/
def rankEnvEmpty : RankEnv :=
  { alive := fun _ => true,
    ai := fun _ => some aiEmptyResponse,
    jsonLoads := fun s =>
      if s = aiEmptyResponse then some (Json.obj [("pricing_urls", Json.arr [])]) else none }

/-- C5 counterexample: the claim says that when the model's answer yields
no usable pricing URLs the ranker returns exactly the keyword-heuristic
fallback output; but when the response parses to a JSON object whose
`pricing_urls` list is empty, the ranker returns the empty list while the
fallback for the same inputs is non-empty (homepage plus the live common
pricing paths), so the two differ. -/
theorem c5_counterexample :
    rankEnvEmpty.ai (prepCandidates "https://acme.test" []) = some aiEmptyResponse ∧
    braceSpan aiEmptyResponse = some aiEmptyResponse ∧
    rankEnvEmpty.jsonLoads aiEmptyResponse =
      some (Json.obj [("pricing_urls", Json.arr [])]) ∧
    pricingUrlsIter (Json.obj [("pricing_urls", Json.arr [])]) = some [] ∧
    ai_identify_pricing_links rankEnvEmpty "https://acme.test" [] = [] ∧
    fallback_pricing_urls rankEnvEmpty "https://acme.test"
        (prepCandidates "https://acme.test" []) =
      ["https://acme.test", "https://acme.test/pricing", "https://acme.test/price",
        "https://acme.test/plans", "https://acme.test/plan",
        "https://acme.test/subscription"] ∧
    ai_identify_pricing_links rankEnvEmpty "https://acme.test" [] ≠
      fallback_pricing_urls rankEnvEmpty "https://acme.test"
        (prepCandidates "https://acme.test" []) := by
  refine ⟨rfl, by decide, rfl, rfl, rfl, by decide, by decide⟩

/-- C5 amended: if the language-model call raises, or its response
contains no brace-delimited span, or that span fails JSON decoding, or
iterating the decoded `pricing_urls` value raises (a number, boolean or
null is not iterable, and a non-dict decode raises on `.get`), then the
Pricing-URL Ranker returns exactly the keyword-heuristic fallback output
applied to the same prepared inputs (the homepage-augmented, possibly
sampled candidate list); when the iteration succeeds — list entries, dict
keys, or string characters — the ranker instead returns the
existence-filtered iterated entries, possibly the empty list, without
falling back.  The ranker is a total function, so it always returns a
list rather than raising. -/
theorem c5_ranker_fallback_amended (env : RankEnv) (domain : String) (links0 : List String) :
    (env.ai (prepCandidates domain links0) = none →
      ai_identify_pricing_links env domain links0 =
        fallback_pricing_urls env domain (prepCandidates domain links0)) ∧
    (∀ txt, env.ai (prepCandidates domain links0) = some txt → braceSpan txt = none →
      ai_identify_pricing_links env domain links0 =
        fallback_pricing_urls env domain (prepCandidates domain links0)) ∧
    (∀ txt span, env.ai (prepCandidates domain links0) = some txt →
      braceSpan txt = some span → env.jsonLoads span = none →
      ai_identify_pricing_links env domain links0 =
        fallback_pricing_urls env domain (prepCandidates domain links0)) ∧
    (∀ txt span j, env.ai (prepCandidates domain links0) = some txt →
      braceSpan txt = some span → env.jsonLoads span = some j →
      pricingUrlsIter j = none →
      ai_identify_pricing_links env domain links0 =
        fallback_pricing_urls env domain (prepCandidates domain links0)) ∧
    (∀ txt span j urls, env.ai (prepCandidates domain links0) = some txt →
      braceSpan txt = some span → env.jsonLoads span = some j →
      pricingUrlsIter j = some urls →
      ai_identify_pricing_links env domain links0 = urls.filter env.alive) := by
  refine ⟨?_, ?_, ?_, ?_, ?_⟩
  · intro h
    simp only [ai_identify_pricing_links, h]
  · intro txt h1 h2
    simp only [ai_identify_pricing_links, h1, h2]
  · intro txt span h1 h2 h3
    simp only [ai_identify_pricing_links, h1, h2, h3]
  · intro txt span j h1 h2 h3 h4
    simp only [ai_identify_pricing_links, h1, h2, h3, h4]
  · intro txt span j urls h1 h2 h3 h4
    simp only [ai_identify_pricing_links, h1, h2, h3, h4]

/-- Ranker environment whose model call raises. -/
def rankEnvRaise : RankEnv :=
  { alive := fun _ => true, ai := fun _ => none, jsonLoads := fun _ => none }

/-- A model response whose `pricing_urls` value is the number 3. -/
def aiNumberResponse : String := "\x7b \"pricing_urls\": 3 \x7d"

/-- Ranker environment whose decoded `pricing_urls` value is a number —
not iterable, so the source's loop raises `TypeError` and falls back. -/
def rankEnvNumber : RankEnv :=
  { alive := fun _ => true,
    ai := fun _ => some aiNumberResponse,
    jsonLoads := fun s =>
      if s = aiNumberResponse
      then some (Json.obj [("pricing_urls", Json.numVal 3)]) else none }

theorem c5_ranker_fallback_amended_witness :
    rankEnvRaise.ai (prepCandidates "https://acme.test" []) = none ∧
    ai_identify_pricing_links rankEnvRaise "https://acme.test" [] =
      fallback_pricing_urls rankEnvRaise "https://acme.test"
        (prepCandidates "https://acme.test" []) ∧
    rankEnvNumber.ai (prepCandidates "https://acme.test" []) = some aiNumberResponse ∧
    braceSpan aiNumberResponse = some aiNumberResponse ∧
    rankEnvNumber.jsonLoads aiNumberResponse =
      some (Json.obj [("pricing_urls", Json.numVal 3)]) ∧
    pricingUrlsIter (Json.obj [("pricing_urls", Json.numVal 3)]) = none ∧
    ai_identify_pricing_links rankEnvNumber "https://acme.test" [] =
      fallback_pricing_urls rankEnvNumber "https://acme.test"
        (prepCandidates "https://acme.test" []) :=
  ⟨rfl, (c5_ranker_fallback_amended rankEnvRaise "https://acme.test" []).1 rfl,
    rfl, by decide, rfl, rfl,
    (c5_ranker_fallback_amended rankEnvNumber "https://acme.test" []).2.2.2.1
      aiNumberResponse aiNumberResponse (Json.obj [("pricing_urls", Json.numVal 3)])
      rfl (by decide) rfl rfl⟩

/-! ## Batch orchestrator and checkpoint store (main.py lines 794-946,
`get_remaining_urls` lines 824-828) -/

/-- One input row of the batch: a `name` and a `website` column
(main.py lines 764-779). -/
structure Item where
  name : String
  website : String
deriving DecidableEq, Repr, Inhabited

/-- The checkpoint payload written by `save_checkpoint` (main.py lines
794-809).  The wall-clock `timestamp` is outside the model and pinned to
zero. -/
structure Checkpoint where
  results : List (String × ResultRecord)
  processed_count : Nat
  total_count : Nat
  timestamp : Nat := 0
deriving DecidableEq, Repr

/-- Python dictionary update `results[name] = v` on an association list:
replace the value at the key in place if present (keys are unique in a
dictionary), else append the binding, preserving insertion order. -/
def setKey : List (String × ResultRecord) → String → ResultRecord →
    List (String × ResultRecord)
  | [], k, v => [(k, v)]
  | p :: ps, k, v => if p.1 = k then (k, v) :: ps else p :: setKey ps k v

/-- `get_remaining_urls` (main.py lines 824-828): the input items whose
name is not a key of the existing results mapping. -/
def get_remaining_urls (all_urls : List Item) (existing_results : List (String × ResultRecord)) :
    List Item :=
  all_urls.filter (fun url => !((existing_results.map Prod.fst).contains url.name))

/-- Python's `str.strip()`: drop whitespace from both ends. -/
def stripPy (s : String) : String :=
  String.mk (((s.data.dropWhile Char.isWhitespace).reverse.dropWhile Char.isWhitespace).reverse)

/-- The guard `not website or website.strip() == ""` of main.py line 881. -/
def blankWebsite (w : String) : Bool :=
  w.data.isEmpty || (stripPy w).data.isEmpty

/-- `website = 'https://' + website` unless a scheme is present
(main.py lines 889-890). -/
def normalizeWebsite (w : String) : String :=
  if listPrefixB "http://".data w.data || listPrefixB "https://".data w.data
  then w else "https://" ++ w

/-- The record stored for an item with an empty website
(main.py line 883): only `error` and `success`. -/
def emptyUrlRecord : ResultRecord :=
  { error := some "Empty URL", success := false }

/-- The record stored when an unexpected exception escapes one item's
processing (main.py lines 910-915): `name`, `website`, `error`, `success`
— and no `domain`. -/
def unexpectedErrorRecord (name website msg : String) : ResultRecord :=
  { name := some name, website := some website,
    error := some ("Unexpected error: " ++ msg), success := false }

/-- Oracle for the batch loop: the outcome of processing one item
(`.error` carries the message of an exception that escapes to the
per-item handler; in main.py the `.ok` value is the `get_pricing_data`
result). -/
structure BatchOracle where
  pricing : String → String → Except String ResultRecord

/-- Outcome of one iteration of the batch loop. -/
structure BatchStepOut where
  results : List (String × ResultRecord)
  checkpoint : Checkpoint
  called : Option String
deriving DecidableEq, Repr

/-- One iteration of the batch loop (main.py lines 873-918) over item
`it`, with `count` items processed so far: an empty or blank website
stores the failure record and writes a checkpoint without calling
`get_pricing_data`; otherwise the normalized website is processed and the
result (or the unexpected-error record) is stored, with a checkpoint
written in every branch carrying `count + 1`. -/
def batchStep (o : BatchOracle) (total count : Nat)
    (results : List (String × ResultRecord)) (it : Item) : BatchStepOut :=
  if blankWebsite it.website then
    let results' := setKey results it.name emptyUrlRecord
    ⟨results', { results := results', processed_count := count + 1, total_count := total }, none⟩
  else
    let website := normalizeWebsite it.website
    match o.pricing it.name website with
    | .ok pricing_data =>
      let results' := setKey results it.name pricing_data
      ⟨results', { results := results', processed_count := count + 1, total_count := total },
        some it.name⟩
    | .error e =>
      let results' := setKey results it.name (unexpectedErrorRecord it.name website e)
      ⟨results', { results := results', processed_count := count + 1, total_count := total },
        some it.name⟩

/-- Outcome of a whole batch run: final results, every checkpoint written,
and the names for which `get_pricing_data` was invoked, in order. -/
structure BatchOut where
  results : List (String × ResultRecord)
  checkpoints : List Checkpoint
  calls : List String
deriving DecidableEq, Repr

/-- The batch loop (main.py lines 873-918) over the remaining items. -/
def batchLoop (o : BatchOracle) (total : Nat) :
    List Item → List (String × ResultRecord) → Nat → BatchOut
  | [], results, _ => ⟨results, [], []⟩
  | it :: rest, results, count =>
    let s := batchStep o total count results it
    let out := batchLoop o total rest s.results (count + 1)
    ⟨out.results, s.checkpoint :: out.checkpoints, s.called.toList ++ out.calls⟩

/-- The resume path of `main` (main.py lines 850-873): with a checkpoint
present, processing continues over `get_remaining_urls` starting from the
checkpoint's results and processed count. -/
def runBatchFromCheckpoint (o : BatchOracle) (all_urls : List Item) (cp : Checkpoint) :
    BatchOut :=
  batchLoop o all_urls.length (get_remaining_urls all_urls cp.results)
    cp.results cp.processed_count

theorem lookup_setKey_ne (m : List (String × ResultRecord)) (k k' : String)
    (v : ResultRecord) (h : k ≠ k') : (setKey m k' v).lookup k = m.lookup k := by
  induction m with
  | nil =>
    have hk : (k == k') = false := by simp [h]
    simp [setKey, List.lookup, hk]
  | cons p ps ih =>
    by_cases hp : p.1 = k'
    · simp only [setKey, hp, if_true]
      have hk : (k == k') = false := by simp [h]
      have hk2 : (k == p.1) = false := by simp [hp, h]
      simp [List.lookup, hk, hk2]
    · simp only [setKey, hp, if_false]
      by_cases hpk : p.1 = k
      · simp [List.lookup, hpk]
      · have hne : (k == p.1) = false := by
          simp only [beq_eq_false_iff_ne, ne_eq]
          exact fun hc => hpk hc.symm
        simp [List.lookup, hne, ih]

theorem mem_setKey (m : List (String × ResultRecord)) (k : String)
    (v : ResultRecord) (p : String × ResultRecord) (hp : p ∈ setKey m k v) :
    p = (k, v) ∨ p ∈ m := by
  induction m with
  | nil => simpa [setKey] using hp
  | cons q qs ih =>
    by_cases hq : q.1 = k
    · simp only [setKey, hq, if_true, List.mem_cons] at hp
      rcases hp with h | h
      · exact Or.inl h
      · exact Or.inr (List.mem_cons_of_mem _ h)
    · simp only [setKey, hq, if_false, List.mem_cons] at hp
      rcases hp with h | h
      · exact Or.inr (h ▸ List.mem_cons_self _ _)
      · rcases ih h with h' | h'
        · exact Or.inl h'
        · exact Or.inr (List.mem_cons_of_mem _ h')

theorem batchStep_lookup_ne (o : BatchOracle) (total count : Nat)
    (results : List (String × ResultRecord)) (it : Item) (k : String)
    (h : it.name ≠ k) :
    ((batchStep o total count results it).results).lookup k = results.lookup k := by
  have h' : k ≠ it.name := fun hc => h hc.symm
  unfold batchStep
  by_cases he : blankWebsite it.website
  · simp only [he, if_true]
    exact lookup_setKey_ne _ _ _ _ h'
  · simp only [he, if_false]
    cases o.pricing it.name (normalizeWebsite it.website) with
    | ok r => exact lookup_setKey_ne _ _ _ _ h'
    | error e => exact lookup_setKey_ne _ _ _ _ h'

theorem batchLoop_lookup_preserved (o : BatchOracle) (total : Nat)
    (items : List Item) (results : List (String × ResultRecord)) (count : Nat)
    (k : String) (hk : ∀ it ∈ items, it.name ≠ k) :
    ((batchLoop o total items results count).results).lookup k = results.lookup k := by
  induction items generalizing results count with
  | nil => rfl
  | cons it rest ih =>
    have h1 := batchStep_lookup_ne o total count results it k (hk it (List.mem_cons_self _ _))
    have h2 := ih (batchStep o total count results it).results (count + 1)
      (fun x hx => hk x (List.mem_cons_of_mem _ hx))
    simp only [batchLoop]
    rw [h2, h1]

theorem batchLoop_calls_sub (o : BatchOracle) (total : Nat)
    (items : List Item) (results : List (String × ResultRecord)) (count : Nat) :
    ∀ n ∈ (batchLoop o total items results count).calls, n ∈ items.map Item.name := by
  induction items generalizing results count with
  | nil => intro n hn; simp [batchLoop] at hn
  | cons it rest ih =>
    intro n hn
    simp only [batchLoop, List.mem_append] at hn
    rcases hn with hn | hn
    · have : (batchStep o total count results it).called = none ∨
          (batchStep o total count results it).called = some it.name := by
        unfold batchStep
        by_cases he : blankWebsite it.website
        · simp [he]
        · simp only [he, if_false]
          cases o.pricing it.name (normalizeWebsite it.website) <;> simp
      rcases this with h | h
      · rw [h] at hn; simp at hn
      · rw [h] at hn
        simp only [Option.toList_some, List.mem_singleton] at hn
        subst hn
        exact List.mem_cons_self _ _ |> fun hm => List.mem_map.mpr ⟨it, hm, rfl⟩
    · exact List.mem_cons_of_mem _ (List.mem_map.mp (ih _ _ n hn) |>.choose_spec.1) |>
        fun hm => List.mem_map.mpr ⟨_, hm, (List.mem_map.mp (ih _ _ n hn)).choose_spec.2⟩

theorem length_filter_not_mem_keys (all : List Item) (keys : List String)
    (hall : (all.map Item.name).Nodup) (hk : keys.Nodup)
    (hsub : ∀ k ∈ keys, k ∈ all.map Item.name) :
    (all.filter (fun it => !keys.contains it.name)).length = all.length - keys.length := by
  induction all generalizing keys with
  | nil =>
    have : keys = [] := by
      cases keys with
      | nil => rfl
      | cons a l => exact absurd (hsub a (List.mem_cons_self _ _)) (by simp)
    simp [this]
  | cons it rest ih =>
    have hname : it.name ∉ rest.map Item.name := (List.nodup_cons.mp hall).1
    have hrest : (rest.map Item.name).Nodup := (List.nodup_cons.mp hall).2
    by_cases hmem : it.name ∈ keys
    · have hcont : keys.contains it.name = true := by
        simpa [List.contains, List.elem_eq_mem] using hmem
      have hk' : (keys.erase it.name).Nodup := hk.erase _
      have hsub' : ∀ k ∈ keys.erase it.name, k ∈ rest.map Item.name := by
        intro k hke
        have h1 : k ≠ it.name ∧ k ∈ keys := (hk.mem_erase_iff).mp hke
        have h2 := hsub k h1.2
        simp only [List.map_cons, List.mem_cons] at h2
        rcases h2 with h2 | h2
        · exact absurd h2 h1.1
        · exact h2
      have hcongr : rest.filter (fun x => !keys.contains x.name) =
          rest.filter (fun x => !(keys.erase it.name).contains x.name) := by
        apply List.filter_congr
        intro x hx
        have hxne : x.name ≠ it.name := by
          intro hc
          exact hname (hc ▸ List.mem_map.mpr ⟨x, hx, rfl⟩)
        simp only [List.contains, List.elem_eq_mem, hk.mem_erase_iff, ne_eq, hxne,
          not_false_eq_true, true_and]
      have hlen : keys.length ≤ rest.length + 1 := by
        have := List.Subperm.length_le (List.subperm_of_subset hk hsub)
        simpa using this
      have hpos : 1 ≤ keys.length := List.length_pos.mpr (fun hc => by simp [hc] at hmem)
      have herase : (keys.erase it.name).length = keys.length - 1 :=
        List.length_erase_of_mem hmem
      have hstep : (it :: rest).filter (fun x => !keys.contains x.name) =
          rest.filter (fun x => !keys.contains x.name) := by
        simp [List.filter_cons, hcont, hmem]
      rw [hstep, hcongr, ih (keys.erase it.name) hrest hk' hsub', herase]
      simp only [List.length_cons]
      omega
    · have hcont : keys.contains it.name = false := by
        simpa [List.contains, List.elem_eq_mem] using hmem
      have hsub' : ∀ k ∈ keys, k ∈ rest.map Item.name := by
        intro k hke
        have h2 := hsub k hke
        simp only [List.map_cons, List.mem_cons] at h2
        rcases h2 with h2 | h2
        · exact absurd (h2 ▸ hke) hmem
        · exact h2
      have hlen : keys.length ≤ rest.length := by
        have := List.Subperm.length_le (List.subperm_of_subset hk hsub')
        simpa using this
      have hstep : (it :: rest).filter (fun x => !keys.contains x.name) =
          it :: rest.filter (fun x => !keys.contains x.name) := by
        simp [List.filter_cons, hcont, hmem]
      rw [hstep, List.length_cons, ih keys hrest hk hsub']
      simp only [List.length_cons]
      omega

/-- C2: For every batch run resumed from a checkpoint whose results
mapping contains N item names (a well-formed batch: distinct input names,
distinct checkpoint keys, every key naming an input item), the batch loop
processes exactly the input items whose name is not a key of that mapping
— `total - N` of them — and never invokes `get_pricing_data` for a name
already present in the checkpoint results, so an already-stored result, in
particular one with `success = true`, is never overwritten. -/
theorem c2_idempotent_resume (o : BatchOracle) (all_urls : List Item) (cp : Checkpoint)
    (hnames : (all_urls.map Item.name).Nodup)
    (hkeys : (cp.results.map Prod.fst).Nodup)
    (hsub : ∀ k ∈ cp.results.map Prod.fst, k ∈ all_urls.map Item.name) :
    (∀ it ∈ all_urls,
      (it ∈ get_remaining_urls all_urls cp.results ↔
        it.name ∉ cp.results.map Prod.fst)) ∧
    (get_remaining_urls all_urls cp.results).length =
      all_urls.length - cp.results.length ∧
    (∀ n ∈ (runBatchFromCheckpoint o all_urls cp).calls,
      n ∉ cp.results.map Prod.fst) ∧
    (∀ k ∈ cp.results.map Prod.fst,
      ((runBatchFromCheckpoint o all_urls cp).results).lookup k =
        cp.results.lookup k) := by
  refine ⟨?_, ?_, ?_, ?_⟩
  · intro it hit
    unfold get_remaining_urls
    rw [List.mem_filter]
    simp [hit, List.contains, List.elem_eq_mem]
  · have := length_filter_not_mem_keys all_urls (cp.results.map Prod.fst) hnames hkeys hsub
    unfold get_remaining_urls
    simpa using this
  · intro n hn
    unfold runBatchFromCheckpoint at hn
    have hmem := batchLoop_calls_sub o all_urls.length
      (get_remaining_urls all_urls cp.results) cp.results cp.processed_count n hn
    obtain ⟨it, hit, hname⟩ := List.mem_map.mp hmem
    unfold get_remaining_urls at hit
    have := (List.mem_filter.mp hit).2
    simp only [List.contains, List.elem_eq_mem, Bool.not_eq_true', decide_eq_false_iff_not] at this
    exact hname ▸ this
  · intro k hkmem
    unfold runBatchFromCheckpoint
    apply batchLoop_lookup_preserved
    intro it hit hc
    have := (List.mem_filter.mp hit).2
    simp only [List.contains, List.elem_eq_mem, Bool.not_eq_true', decide_eq_false_iff_not] at this
    exact this (hc ▸ hkmem)

/-- Concrete input batch for the resume witness. -/
def allW : List Item := [⟨"A", "https://a.test"⟩, ⟨"B", "https://b.test"⟩]

/-- A stored success record for item A. -/
def recA : ResultRecord :=
  { name := some "A", domain := some "https://a.test", source_url := some "https://a.test",
    currency := some "usd", plans := some [planA], content_length := some 120, success := true }

/-- Checkpoint with item A already complete. -/
def cpW : Checkpoint := { results := [("A", recA)], processed_count := 1, total_count := 2 }

/-- Batch oracle for the resume witness. -/
def batchO1 : BatchOracle :=
  ⟨fun name website => .ok
    { name := some name, domain := some website,
      error := some "All URLs failed to yield valid pricing data",
      attempted_urls := some [website], success := false }⟩

theorem c2_idempotent_resume_witness :
    (allW.map Item.name).Nodup ∧
    (cpW.results.map Prod.fst).Nodup ∧
    (∀ k ∈ cpW.results.map Prod.fst, k ∈ allW.map Item.name) ∧
    ((∀ it ∈ allW,
      (it ∈ get_remaining_urls allW cpW.results ↔
        it.name ∉ cpW.results.map Prod.fst)) ∧
    (get_remaining_urls allW cpW.results).length =
      allW.length - cpW.results.length ∧
    (∀ n ∈ (runBatchFromCheckpoint batchO1 allW cpW).calls,
      n ∉ cpW.results.map Prod.fst) ∧
    (∀ k ∈ cpW.results.map Prod.fst,
      ((runBatchFromCheckpoint batchO1 allW cpW).results).lookup k =
        cpW.results.lookup k)) :=
  ⟨by decide, by decide, by decide,
    c2_idempotent_resume batchO1 allW cpW (by decide) (by decide) (by decide)⟩

/-- C8: For every batch item whose website field is missing or empty (the
guard `not website or website.strip() == ""`), the batch loop stores the
failure record under that item's name, writes a checkpoint whose
`processed_count` is the previous count incremented by one, and performs
no network access for that item — `get_pricing_data` is never invoked
(the step's `called` component is `none`). -/
theorem c8_empty_website_skip (o : BatchOracle) (total count : Nat)
    (results : List (String × ResultRecord)) (it : Item)
    (h : blankWebsite it.website = true) :
    (batchStep o total count results it).results = setKey results it.name emptyUrlRecord ∧
    ((batchStep o total count results it).results).lookup it.name = some emptyUrlRecord ∧
    (batchStep o total count results it).checkpoint =
      { results := setKey results it.name emptyUrlRecord,
        processed_count := count + 1, total_count := total } ∧
    (batchStep o total count results it).checkpoint.processed_count = count + 1 ∧
    (batchStep o total count results it).called = none := by
  have hlook : ∀ m : List (String × ResultRecord),
      (setKey m it.name emptyUrlRecord).lookup it.name = some emptyUrlRecord := by
    intro m
    induction m with
    | nil => simp [setKey, List.lookup]
    | cons p ps ih =>
      by_cases hp : p.1 = it.name
      · simp [setKey, hp, List.lookup]
      · have hne : (it.name == p.1) = false := by
          simp only [beq_eq_false_iff_ne, ne_eq]
          exact fun hc => hp hc.symm
        simp [setKey, hp, List.lookup, hne, ih]
    
  unfold batchStep
  simp [h, hlook results]

theorem c8_empty_website_skip_witness :
    blankWebsite (Item.website ⟨"Empty Co", "  "⟩) = true ∧
    ((batchStep batchO1 2 0 [] ⟨"Empty Co", "  "⟩).results =
        setKey [] "Empty Co" emptyUrlRecord ∧
      ((batchStep batchO1 2 0 [] ⟨"Empty Co", "  "⟩).results).lookup "Empty Co" =
        some emptyUrlRecord ∧
      (batchStep batchO1 2 0 [] ⟨"Empty Co", "  "⟩).checkpoint =
        { results := setKey [] "Empty Co" emptyUrlRecord,
          processed_count := 0 + 1, total_count := 2 } ∧
      (batchStep batchO1 2 0 [] ⟨"Empty Co", "  "⟩).checkpoint.processed_count = 0 + 1 ∧
      (batchStep batchO1 2 0 [] ⟨"Empty Co", "  "⟩).called = none) :=
  ⟨by decide, c8_empty_website_skip batchO1 2 0 [] ⟨"Empty Co", "  "⟩ (by decide)⟩

/-- True when the record's `plans` key holds a non-empty list. -/
def plansNonempty (r : ResultRecord) : Bool :=
  match r.plans with
  | some (_ :: _) => true
  | _ => false

/-- The field discipline every stored record actually satisfies: a success
record carries `name`, `domain`, `source_url`, `content_length` and a
non-empty `plans` list; a failure record carries `error`. -/
def recordDiscipline (r : ResultRecord) : Bool :=
  if r.success then
    r.name.isSome && r.domain.isSome && r.source_url.isSome &&
      r.content_length.isSome && plansNonempty r
  else r.error.isSome

theorem firstGood_goodUrl (o : SiteOracle) (l : List Url) (u : Url)
    (h : firstGood o l = some u) : goodUrl o u = true := by
  induction l with
  | nil => simp [firstGood] at h
  | cons v rest ih =>
    by_cases hv : goodUrl o v
    · simp only [firstGood, hv, if_true, Option.some.injEq] at h
      exact h ▸ hv
    · simp only [firstGood, hv, Bool.false_eq_true, if_false] at h
      exact ih h

theorem goodUrl_plans (o : SiteOracle) (u : Url) (h : goodUrl o u = true) :
    ∃ p ps, (o.analyze u (o.extract u)).plans = some (p :: ps) := by
  unfold goodUrl at h
  rcases hp : (o.analyze u (o.extract u)).plans with _ | ⟨_ | ⟨p, ps⟩⟩ <;>
    rw [hp] at h <;> simp at h
  exact ⟨p, ps, rfl⟩

/-- Every record returned by `get_pricing_data` has `name` and `domain`
filled with the call's arguments and satisfies the field discipline. -/
theorem get_pricing_data_record (o : SiteOracle) (domain name : String) :
    (get_pricing_data o domain name).result.name = some name ∧
    (get_pricing_data o domain name).result.domain = some domain ∧
    recordDiscipline (get_pricing_data o domain name).result = true := by
  unfold get_pricing_data
  cases o.routes with
  | error e =>
    exact ⟨rfl, rfl, rfl⟩
  | ok urls =>
    by_cases hempty : urls.isEmpty
    · simp only [hempty, if_true]
      exact ⟨rfl, rfl, rfl⟩
    · simp only [hempty, Bool.false_eq_true, if_false]
      obtain ⟨h1, h2, h3⟩ := tryUrls_spec o name domain (urls.take 5)
      rcases htr : tryUrls o name domain (urls.take 5) with ⟨r?, es, as⟩
      rw [htr] at h3
      revert h3
      cases hfg : firstGood o (urls.take 5) with
      | some w =>
        intro h3
        obtain ⟨-, hr⟩ := h3
        dsimp only at hr
        subst hr
        obtain ⟨p, ps, hplans⟩ := goodUrl_plans o w (firstGood_goodUrl o _ w hfg)
        refine ⟨by simp [finishRun, successRecord], by simp [finishRun, successRecord], ?_⟩
        simp [finishRun, recordDiscipline, successRecord, plansNonempty, hplans]
      | none =>
        intro h3
        obtain ⟨-, hr⟩ := h3
        dsimp only at hr
        subst hr
        exact ⟨by simp [finishRun, exhaustedRecord], by simp [finishRun, exhaustedRecord],
          by simp [finishRun, recordDiscipline, exhaustedRecord]⟩

/-- C9 counterexample: the claim says every stored result record contains
the fields `name`, `domain` and `success`; but the record stored for an
item with an empty website (main.py line 883) is `\x7b"error": "Empty URL",
"success": false\x7d`, which carries neither `name` nor `domain`. -/
theorem c9_counterexample :
    ((batchStep batchO1 1 0 [] ⟨"Acme", ""⟩).results).lookup "Acme" =
      some emptyUrlRecord ∧
    emptyUrlRecord.name = none ∧
    emptyUrlRecord.domain = none ∧
    emptyUrlRecord.success = false ∧
    emptyUrlRecord.error = some "Empty URL" := by
  refine ⟨by decide, rfl, rfl, rfl, rfl⟩

/-- C9 amended: every stored record contains `success`; records produced
by `get_pricing_data` additionally contain `name` and `domain`; success
records (which only `get_pricing_data` produces) carry `name`, `domain`,
`source_url`, a non-empty `plans` list and `content_length` (`currency`
only when the analyzer emitted one); failure records carry `error` (with
`attempted_urls` in the exhausted case) — but the empty-website skip
record carries only `error` and `success`, and the batch-level
unexpected-error record carries `name`, `website`, `error` and `success`
without `domain`.  Stated as: the per-site records have `name`/`domain`
and the discipline; the two batch-only records have exactly their shapes;
and every record stored by a batch run whose per-site results obey the
discipline obeys the discipline. -/
theorem c9_record_fields_amended :
    (∀ (o : SiteOracle) (domain name : String),
      (get_pricing_data o domain name).result.name = some name ∧
      (get_pricing_data o domain name).result.domain = some domain ∧
      recordDiscipline (get_pricing_data o domain name).result = true) ∧
    (emptyUrlRecord.name = none ∧ emptyUrlRecord.domain = none ∧
      emptyUrlRecord.error = some "Empty URL" ∧ emptyUrlRecord.success = false) ∧
    (∀ n w m, (unexpectedErrorRecord n w m).name = some n ∧
      (unexpectedErrorRecord n w m).website = some w ∧
      (unexpectedErrorRecord n w m).domain = none ∧
      (unexpectedErrorRecord n w m).error = some ("Unexpected error: " ++ m) ∧
      (unexpectedErrorRecord n w m).success = false) ∧
    (∀ (o : BatchOracle) (total : Nat) (items : List Item)
        (results : List (String × ResultRecord)) (count : Nat),
      (∀ p ∈ results, recordDiscipline p.2 = true) →
      (∀ nm w r, o.pricing nm w = .ok r → recordDiscipline r = true) →
      ∀ p ∈ (batchLoop o total items results count).results,
        recordDiscipline p.2 = true) := by
  refine ⟨get_pricing_data_record, ⟨rfl, rfl, rfl, rfl⟩,
    fun n w m => ⟨rfl, rfl, rfl, rfl, rfl⟩, ?_⟩
  intro o total items results count hres hok
  induction items generalizing results count with
  | nil => exact hres
  | cons it rest ih =>
    have hstep : ∀ p ∈ (batchStep o total count results it).results,
        recordDiscipline p.2 = true := by
      intro p hp
      unfold batchStep at hp
      by_cases he : blankWebsite it.website
      · simp only [he, if_true] at hp
        rcases mem_setKey _ _ _ _ hp with h | h
        · rw [h]; rfl
        · exact hres p h
      · simp only [he, Bool.false_eq_true, if_false] at hp
        cases hpr : o.pricing it.name (normalizeWebsite it.website) with
        | ok r =>
          rw [hpr] at hp
          dsimp only at hp
          rcases mem_setKey _ _ _ _ hp with h | h
          · rw [h]; exact hok it.name _ r hpr
          · exact hres p h
        | error e =>
          rw [hpr] at hp
          dsimp only at hp
          rcases mem_setKey _ _ _ _ hp with h | h
          · rw [h]; rfl
          · exact hres p h
    exact ih _ (count + 1) hstep

/-- The record `batchO1` stores for item B. -/
def recB : ResultRecord :=
  { name := some "B", domain := some "https://b.test",
    error := some "All URLs failed to yield valid pricing data",
    attempted_urls := some ["https://b.test"], success := false }

theorem c9_record_fields_amended_witness :
    ("B", recB) ∈ (batchLoop batchO1 2 allW [] 0).results ∧
    recordDiscipline recB = true :=
  ⟨by decide,
    c9_record_fields_amended.2.2.2 batchO1 2 allW [] 0 (by simp)
      (fun nm w r h => by injection h with h; subst h; rfl)
      ("B", recB) (by decide)⟩

/-! ## Sitemap Traversal Engine (`_get_all_sitemap_links`, main.py lines
177-227; `_extract_nested_sitemaps`, main.py lines 333-402;
`_discover_sitemap_urls`, main.py lines 229-258) -/

/-- Python `set.add` / order-insensitive set union, modelled as an
order-preserving insert that keeps the first occurrence. -/
def insertIfAbsent (acc : List Url) (u : Url) : List Url :=
  if acc.contains u then acc else acc ++ [u]

/-- Order-preserving deduplication (the `found_urls` bookkeeping of
`_extract_nested_sitemaps` and the final `list(set(...))`, whose iteration
order Python leaves unspecified). -/
def dedupKeepFirst (l : List Url) : List Url :=
  l.foldl insertIfAbsent []

/-- A fetched sitemap-index document as `_extract_nested_sitemaps`
consumes it: the `<loc>` texts under `<sitemap>` tags (`none` when no
`<sitemap>` tag is present at all), and every `<loc>` text of the
document. -/
structure IndexDoc where
  sitemapTagLocs : Option (List Url)
  locs : List Url

/-- Oracle for the traversal: the Existence Checker verdict, the validated
content URLs `_extract_links_from_sitemap` yields for a sitemap, the
`_is_sitemap_index` verdict (that helper catches its own exceptions), the
fetched index document (`none` when the fetch or parse raises), and the
`Sitemap:` directives parsed from `robots.txt`. -/
structure SitemapWeb where
  alive : Url → Bool
  contentLocs : Url → List Url
  isIndex : Url → Bool
  fetchIndex : Url → Option IndexDoc
  robotsSitemaps : List Url

/-- The direct children of an index document (main.py lines 354-376):
deduplicated `<sitemap><loc>` entries, or — when no `<sitemap>` tag exists
— every `<loc>` that differs from the parent and looks sitemap-like. -/
def indexChildren (parent : Url) (doc : IndexDoc) : List Url :=
  match doc.sitemapTagLocs with
  | some locs => dedupKeepFirst locs
  | none =>
    dedupKeepFirst (doc.locs.filter
      (fun u => u ≠ parent &&
        (containsSubstr (lowerStr u) "sitemap" || containsSubstr u ".xml")))

mutual

/-- `_extract_nested_sitemaps` (main.py lines 333-402) with the depth
budget made structural: `fuel` stands for `11 - depth`, so `fuel = 0` is
the `depth > 10` guard.  Returns the (deduplicated) nested sitemap list
and the updated shared visited set. -/
def extractNestedAux (w : SitemapWeb) : Nat → Url → List Url → List Url × List Url
  | 0, _, processed => ([], processed)
  | Nat.succ fuel, url, processed =>
    if processed.contains url then ([], processed)
    else
      let processed' := processed ++ [url]
      match w.fetchIndex url with
      | none => ([], processed')
      | some doc =>
        let children := indexChildren url doc
        let r := nestedChildrenAux w fuel children processed'
        (dedupKeepFirst (children ++ r.1), r.2)
termination_by fuel _ _ => (fuel, 0)

/-- The recursion loop over an index's children (main.py lines 380-394):
each child not yet visited that is itself an index is expanded one level
deeper, threading the shared visited set. -/
def nestedChildrenAux (w : SitemapWeb) : Nat → List Url → List Url → List Url × List Url
  | _, [], processed => ([], processed)
  | fuel, c :: cs, processed =>
    if !processed.contains c && w.isIndex c then
      let d := extractNestedAux w fuel c processed
      let r := nestedChildrenAux w fuel cs d.2
      (d.1 ++ r.1, r.2)
    else
      nestedChildrenAux w fuel cs processed
termination_by fuel cs _ => (fuel, cs.length + 1)

end

/-- `_extract_nested_sitemaps` with the source's `depth` parameter: the
`depth > 10` guard returns immediately, otherwise the remaining budget is
`11 - depth`. -/
def extract_nested_sitemaps (w : SitemapWeb) (url : Url) (processed : List Url)
    (depth : Nat) : List Url × List Url :=
  if 10 < depth then ([], processed)
  else extractNestedAux w (11 - depth) url processed

/-- Well-known sitemap locations (main.py lines 234-238). -/
def commonSitemapLocations : List String :=
  ["sitemap.xml", "sitemap_index.xml", "sitemap/sitemap.xml",
    "sitemap.xml.gz", "sitemap/sitemap_index.xml",
    "wp-sitemap.xml", "sitemap-index.xml"]

/-- `_discover_sitemap_urls` (main.py lines 229-258): the well-known
locations resolved against the domain, then any `Sitemap:` directives from
`robots.txt`. -/
def discover_sitemap_urls (w : SitemapWeb) (domain : String) : List Url :=
  commonSitemapLocations.map (fun loc => urljoin domain loc) ++ w.robotsSitemaps

/-- The queue loop of `_get_all_sitemap_links` (main.py lines 188-220),
with the 50-iteration budget structural: each recursion step consumes one
iteration.  Returns the collected link set, the processed set and the
number of iterations executed. -/
def sitemapLoopAux (w : SitemapWeb) :
    Nat → List Url → List Url → List Url → List Url × List Url × Nat
  | 0, _, processed, links => (links, processed, 0)
  | Nat.succ _, [], processed, links => (links, processed, 0)
  | Nat.succ fuel, sitemap_url :: queue, processed, links =>
    if processed.contains sitemap_url then
      let r := sitemapLoopAux w fuel queue processed links
      (r.1, r.2.1, r.2.2 + 1)
    else if !w.alive sitemap_url then
      let r := sitemapLoopAux w fuel queue processed links
      (r.1, r.2.1, r.2.2 + 1)
    else
      let processed' := insertIfAbsent processed sitemap_url
      let links' := (w.contentLocs sitemap_url).foldl insertIfAbsent links
      if w.isIndex sitemap_url then
        let nested := (extract_nested_sitemaps w sitemap_url [] 0).1
        let queue' := nested.foldl
          (fun q s => if !processed'.contains s && !q.contains s then q ++ [s] else q)
          queue
        let r := sitemapLoopAux w fuel queue' processed' links'
        (r.1, r.2.1, r.2.2 + 1)
      else
        let r := sitemapLoopAux w fuel queue processed' links'
        (r.1, r.2.1, r.2.2 + 1)

/-- `_get_all_sitemap_links` (main.py lines 177-227): discover candidate
sitemap locations, then run the queue loop with `max_iterations = 50`.
Returns the deduplicated link set and the iteration count. -/
def get_all_sitemap_links (w : SitemapWeb) (domain : String) : List Url × Nat :=
  let sitemap_urls := discover_sitemap_urls w domain
  let (links, _, iters) := sitemapLoopAux w 50 sitemap_urls [] []
  (links, iters)

theorem insertIfAbsent_nodup (acc : List Url) (u : Url) (h : acc.Nodup) :
    (insertIfAbsent acc u).Nodup := by
  unfold insertIfAbsent
  by_cases hm : u ∈ acc
  · have hc : acc.contains u = true := by simpa [List.contains, List.elem_eq_mem] using hm
    rw [if_pos hc]
    exact h
  · have hc : acc.contains u = false := by simpa [List.contains, List.elem_eq_mem] using hm
    rw [if_neg (by simpa using hm)]
    simp [List.nodup_append, h, hm]

theorem foldl_insertIfAbsent_nodup (l : List Url) :
    ∀ acc : List Url, acc.Nodup → (l.foldl insertIfAbsent acc).Nodup := by
  induction l with
  | nil => intro acc h; simpa
  | cons x xs ih =>
    intro acc h
    simpa [List.foldl_cons] using ih (insertIfAbsent acc x) (insertIfAbsent_nodup acc x h)

theorem dedupKeepFirst_nodup (l : List Url) : (dedupKeepFirst l).Nodup :=
  foldl_insertIfAbsent_nodup l [] List.nodup_nil

theorem extractNestedAux_nodup (w : SitemapWeb) (fuel : Nat) (url : Url)
    (processed : List Url) : (extractNestedAux w fuel url processed).1.Nodup := by
  cases fuel with
  | zero => simp [extractNestedAux]
  | succ fuel =>
    rw [extractNestedAux]
    by_cases hc : processed.contains url
    · rw [if_pos hc]
      exact List.nodup_nil
    · rw [if_neg (by simpa using hc)]
      cases w.fetchIndex url with
      | none => exact List.nodup_nil
      | some doc => exact dedupKeepFirst_nodup _

theorem sitemapLoopAux_iters_le (w : SitemapWeb) :
    ∀ (fuel : Nat) (q p l : List Url), (sitemapLoopAux w fuel q p l).2.2 ≤ fuel := by
  intro fuel
  induction fuel with
  | zero => intro q p l; simp [sitemapLoopAux]
  | succ fuel ih =>
    intro q p l
    cases q with
    | nil => simp [sitemapLoopAux]
    | cons u rest =>
      rw [sitemapLoopAux]
      by_cases h1 : p.contains u
      · rw [if_pos h1]
        exact Nat.succ_le_succ (ih rest p l)
      · rw [if_neg (by simpa using h1)]
        by_cases h2 : w.alive u
        · rw [if_neg (by simp [h2])]
          by_cases h3 : w.isIndex u
          · rw [if_pos h3]
            exact Nat.succ_le_succ (ih _ _ _)
          · rw [if_neg (by simp [h3])]
            exact Nat.succ_le_succ (ih _ _ _)
        · rw [if_pos (by simp [h2])]
          exact Nat.succ_le_succ (ih rest p l)

theorem sitemapLoopAux_links_nodup (w : SitemapWeb) :
    ∀ (fuel : Nat) (q p l : List Url), l.Nodup → (sitemapLoopAux w fuel q p l).1.Nodup := by
  intro fuel
  induction fuel with
  | zero => intro q p l h; simpa [sitemapLoopAux]
  | succ fuel ih =>
    intro q p l h
    cases q with
    | nil => simpa [sitemapLoopAux]
    | cons u rest =>
      rw [sitemapLoopAux]
      by_cases h1 : p.contains u
      · rw [if_pos h1]
        exact ih rest p l h
      · rw [if_neg (by simpa using h1)]
        by_cases h2 : w.alive u
        · rw [if_neg (by simp [h2])]
          by_cases h3 : w.isIndex u
          · rw [if_pos h3]
            exact ih _ _ _ (foldl_insertIfAbsent_nodup _ l h)
          · rw [if_neg (by simp [h3])]
            exact ih _ _ _ (foldl_insertIfAbsent_nodup _ l h)
        · rw [if_pos (by simp [h2])]
          exact ih rest p l h

/-- C3: For every input — including a sitemap index graph containing a
cycle (A references B which references A) — the sitemap traversal
terminates (both functions are total Lean functions over every oracle, so
termination is by construction) and returns a finite deduplicated URL
set, with the top-level queue loop executing at most 50 iterations and
the nested-index recursion returning immediately beyond depth 10 while
producing deduplicated output at every depth; both bounds hold
simultaneously. -/
theorem c3_sitemap_termination_bounds (w : SitemapWeb) (domain : String) :
    (get_all_sitemap_links w domain).2 ≤ 50 ∧
    (get_all_sitemap_links w domain).1.Nodup ∧
    (∀ url processed depth, 10 < depth →
      extract_nested_sitemaps w url processed depth = ([], processed)) ∧
    (∀ url processed depth, (extract_nested_sitemaps w url processed depth).1.Nodup) := by
  refine ⟨?_, ?_, ?_, ?_⟩
  · exact sitemapLoopAux_iters_le w 50 (discover_sitemap_urls w domain) [] []
  · exact sitemapLoopAux_links_nodup w 50 (discover_sitemap_urls w domain) [] []
      List.nodup_nil
  · intro url processed depth h
    simp [extract_nested_sitemaps, h]
  · intro url processed depth
    unfold extract_nested_sitemaps
    by_cases h : 10 < depth
    · simp [h]
    · simp only [h, if_false]
      exact extractNestedAux_nodup w (11 - depth) url processed

/-- Sitemap A of the cyclic witness. -/
def sitemapA : Url := "https://c.test/sitemap_a.xml"

/-- Sitemap B of the cyclic witness. -/
def sitemapB : Url := "https://c.test/sitemap_b.xml"

/-- An adversarial web: sitemap A is an index referencing B, and B is an
index referencing A. -/
def cyclicWeb : SitemapWeb :=
  { alive := fun _ => true,
    contentLocs := fun u =>
      if u = sitemapA then ["https://c.test/page1"] else ["https://c.test/page2"],
    isIndex := fun u => u = sitemapA || u = sitemapB,
    fetchIndex := fun u =>
      if u = sitemapA then some ⟨some [sitemapB], []⟩
      else if u = sitemapB then some ⟨some [sitemapA], []⟩
      else none,
    robotsSitemaps := [sitemapA] }

theorem c3_sitemap_termination_bounds_witness :
    10 < 11 ∧
    extract_nested_sitemaps cyclicWeb sitemapB [] 11 = ([], []) ∧
    (get_all_sitemap_links cyclicWeb "https://c.test").2 ≤ 50 ∧
    (get_all_sitemap_links cyclicWeb "https://c.test").1.Nodup :=
  ⟨by decide,
    (c3_sitemap_termination_bounds cyclicWeb "https://c.test").2.2.1 sitemapB [] 11 (by decide),
    (c3_sitemap_termination_bounds cyclicWeb "https://c.test").1,
    (c3_sitemap_termination_bounds cyclicWeb "https://c.test").2.1⟩
